import Mathlib

/-!
Verification of the bilingual alignment and chunking pipeline
(`build_chunks.py`): language classification, span alignment,
chunk building, batch driving, and lexicon normalization.

Modelling conventions:
* Python floats (span coordinates, tolerance) are modelled as `ℚ`.
* Python string primitives (`in`, `startswith`, `strip`, `len`,
  `str.join`) are modelled by executable functions over `String.data`.
* The external statistical detector (`langdetect.detect`) is a parameter
  `det : String → Except Unit String`; `Except.error` models it raising.
* The external text splitter (`RecursiveCharacterTextSplitter`) is a
  parameter `split : List String → List String` mapping the formatted
  blocks to the produced documents' page contents.
* Python exceptions in the batch driver are modelled with `Except`.
-/

/-- Python `pat in s` (substring containment), on character lists. -/
def subChars (pat : List Char) : List Char → Bool
  | [] => pat.isEmpty
  | c :: t => pat.isPrefixOf (c :: t) || subChars pat t

/-- Python `pat in s` on strings. -/
def pyContains (s pat : String) : Bool :=
  subChars pat.data s.data

/-- Python `s.startswith(pat)`. -/
def pyStartsWith (s pat : String) : Bool :=
  pat.data.isPrefixOf s.data

/-- Python `s.strip()`: drop leading and trailing whitespace. -/
def pyStrip (s : String) : String :=
  ⟨((s.data.dropWhile Char.isWhitespace).reverse.dropWhile Char.isWhitespace).reverse⟩

/-- Python `len(s)` (number of characters). -/
def pyLen (s : String) : Nat :=
  s.data.length

/-- Python `sep.join(xs)`. -/
def pyJoin (sep : String) : List String → String
  | [] => ""
  | [x] => x
  | x :: y :: xs => x ++ sep ++ pyJoin sep (y :: xs)

/-- One positioned text span, as produced by `extract_blocks`. -/
structure Block where
  text : String
  x0 : ℚ
  y0 : ℚ
  font : String
  page : Nat
deriving DecidableEq

/-- The `meta` dictionary attached to each aligned pair. -/
structure PairMeta where
  page_en : Option Nat
  page_hi : Option Nat
deriving DecidableEq

/-- One `(en_text, hi_text, meta)` tuple produced by `align_blocks`. -/
structure AlignedPair where
  en : String
  hi : String
  meta : PairMeta
deriving DecidableEq

/-- One chunk record produced by `create_bilingual_chunks`. -/
structure Chunk where
  chunk_id : String
  source : String
  language : String
  alignment_status : String
  length : Nat
  text : String
deriving DecidableEq

/-- `re.search(r'[ऀ-ॿ]', text)`: does the text contain a
Devanagari-block character (U+0900–U+097F)? -/
def hasDevanagari (text : String) : Bool :=
  text.data.any (fun c => 0x900 ≤ c.toNat && c.toNat ≤ 0x97F)

/-- `detect_language` from `build_chunks.py`: Hindi via Unicode block,
else the `langdetect` fallback, defaulting to `"en"` on any other code
or on an exception. -/
def detect_language (det : String → Except Unit String) (text : String) : String :=
  if hasDevanagari text then "hi"
  else
    match det text with
    | Except.ok lang =>
        if pyStartsWith lang "hi" then "hi"
        else if pyStartsWith lang "en" then "en"
        else "en"
    | Except.error _ => "en"

/-- The loop body and final flush of `align_blocks`, with the
`pending_en` slot made explicit. -/
def alignAux (det : String → Except Unit String) (tol : ℚ) :
    Option Block → List Block → List AlignedPair
  | some p, [] => [⟨p.text, "", ⟨some p.page, none⟩⟩]
  | none, [] => []
  | pending, b :: bs =>
    if detect_language det b.text = "en" then
      match pending with
      | some p => ⟨p.text, "", ⟨some p.page, none⟩⟩ :: alignAux det tol (some b) bs
      | none => alignAux det tol (some b) bs
    else if detect_language det b.text = "hi" then
      match pending with
      | some p =>
        if b.page = p.page ∧ |b.y0 - p.y0| ≤ tol then
          ⟨p.text, b.text, ⟨some p.page, some b.page⟩⟩ :: alignAux det tol none bs
        else
          ⟨"", b.text, ⟨none, some b.page⟩⟩ :: alignAux det tol (some p) bs
      | none => ⟨"", b.text, ⟨none, some b.page⟩⟩ :: alignAux det tol none bs
    else alignAux det tol pending bs

/-- `align_blocks(blocks, y_tolerance)`: single forward pass with an
initially empty `pending_en` slot. -/
def align_blocks (det : String → Except Unit String) (tol : ℚ)
    (blocks : List Block) : List AlignedPair :=
  alignAux det tol none blocks

/-- Number of spans the classifier tags `"en"`. -/
def countEn (det : String → Except Unit String) (bs : List Block) : Nat :=
  bs.countP (fun b => detect_language det b.text == "en")

/-- Number of spans the classifier tags `"hi"`. -/
def countHi (det : String → Except Unit String) (bs : List Block) : Nat :=
  bs.countP (fun b => detect_language det b.text == "hi")

/-- Number of emitted pairs with both sides populated (read off the
pair's meta pages). -/
def countPaired (ps : List AlignedPair) : Nat :=
  ps.countP (fun pr => pr.meta.page_en.isSome && pr.meta.page_hi.isSome)

/-- The block string built for one pair in `create_bilingual_chunks`. -/
def formatPair (p : AlignedPair) : String :=
  let bt := if p.en ≠ "" then "EN: " ++ p.en else ""
  if p.hi ≠ "" then bt ++ (if bt ≠ "" then "\n" else "") ++ "HI: " ++ p.hi
  else bt

/-- The `formatted_blocks` list of `create_bilingual_chunks`: pairs with
both sides empty are skipped. -/
def formattedBlocks (pairs : List AlignedPair) : List String :=
  pairs.filterMap (fun p =>
    if p.en = "" ∧ p.hi = "" then none else some (formatPair p))

/-- The labeling loop of `create_bilingual_chunks`, enumerating the
splitter's documents from a starting index. -/
def mkChunks (source_name : String) : Nat → List String → List Chunk
  | _, [] => []
  | i, d :: ds =>
    let text := pyStrip d
    ⟨source_name ++ "_chunk_" ++ toString i, source_name, "hi-en",
      if pyContains text "EN:" && pyContains text "HI:" then "perfect"
      else "partial",
      pyLen text, text⟩ :: mkChunks source_name (i + 1) ds

/-- `create_bilingual_chunks(pairs, source_name)` with the external
splitter abstracted as `split`. -/
def create_bilingual_chunks (split : List String → List String)
    (pairs : List AlignedPair) (source_name : String) : List Chunk :=
  let fb := formattedBlocks pairs
  if fb = [] then [] else mkChunks source_name 1 (split fb)

/-- `process_bilingual_pdfs`: per document, extraction (which may raise,
modelled as `Except.error`), alignment with the default tolerance 120,
and chunking; an exception anywhere aborts the whole run. -/
def process_bilingual_pdfs (det : String → Except Unit String)
    (split : List String → List String) :
    List (String × Except Unit (List Block)) → Except Unit (List Chunk)
  | [] => Except.ok []
  | (name, extracted) :: rest =>
    match extracted with
    | Except.error e => Except.error e
    | Except.ok blocks =>
      match process_bilingual_pdfs det split rest with
      | Except.error e => Except.error e
      | Except.ok cs =>
        Except.ok (create_bilingual_chunks split
          (align_blocks det 120 blocks) name ++ cs)

/-- One structured lexicon entry as read by `load_cultural_semantics`;
`none` models a key missing from the JSON object. -/
structure CsEntry where
  id : Option String
  expression_native : Option String
  expression_translit : Option String
  literal_translation : Option String
  clinical_meaning : Option String
  cultural_context : Option String
  synonyms_variants : Option (List String)
  disambiguation_questions : Option (List String)
  category : Option String
  severity_hint : Option String
  risk_flag : Option Bool
  language_pair : Option String
deriving DecidableEq

/-- The `canonical_text` built for one entry in `load_cultural_semantics`
(dict `.get` defaults applied, f-string concatenation, final `.strip()`). -/
def cs_canonical_text (e : CsEntry) : String :=
  let native := e.expression_native.getD ""
  let translit := e.expression_translit.getD ""
  let literal := e.literal_translation.getD ""
  let clinical := e.clinical_meaning.getD ""
  let context := e.cultural_context.getD ""
  let synonyms := e.synonyms_variants.getD []
  let disamb := e.disambiguation_questions.getD []
  pyStrip
    (native ++ " (" ++ translit ++ ")\n" ++
     "Literal: " ++ literal ++ "\n" ++
     "Meaning: " ++ clinical ++ "\n" ++
     "Cultural context: " ++ context ++ "\n" ++
     "Synonyms/variants: " ++
       (if synonyms.isEmpty then "N/A" else pyJoin ", " synonyms) ++ "\n" ++
     "Disambiguation questions: " ++
       (if disamb.isEmpty then "N/A" else pyJoin " | " disamb))

/-- Modelled from the spec: the six canonical sub-fields of a lexicon
entry, in the fixed order of §4.4 — native expression + transliteration,
literal translation, meaning, cultural context, synonyms (placeholder
`"N/A"` when empty), disambiguation questions (placeholder `"N/A"` when
empty); missing scalar fields render as empty strings. -/
def csSixSegments (e : CsEntry) : List String :=
  [e.expression_native.getD "" ++ " (" ++ e.expression_translit.getD "" ++ ")",
   "Literal: " ++ e.literal_translation.getD "",
   "Meaning: " ++ e.clinical_meaning.getD "",
   "Cultural context: " ++ e.cultural_context.getD "",
   "Synonyms/variants: " ++
     (if (e.synonyms_variants.getD []).isEmpty then "N/A"
      else pyJoin ", " (e.synonyms_variants.getD [])),
   "Disambiguation questions: " ++
     (if (e.disambiguation_questions.getD []).isEmpty then "N/A"
      else pyJoin " | " (e.disambiguation_questions.getD []))]

/-- Modelled from the spec: the canonical text is the six segments in
fixed order, newline-joined, trimmed. -/
def csSpecText (e : CsEntry) : String :=
  pyStrip (pyJoin "\n" (csSixSegments e))

example : pyContains "EN: hello\nHI: नमस्ते" "HI:" = true := by decide
example : pyContains "EN: hello" "HI:" = false := by decide
example : pyStrip "  abc\n" = "abc" := by decide
example : pyStartsWith "hindi" "hi" = true := by decide
example : detect_language (fun _ => Except.error ()) "नमस्ते" = "hi" := by decide
example : detect_language (fun _ => Except.error ()) "intro" = "en" := by decide
example : detect_language (fun _ => Except.ok "fr") "bonjour" = "en" := by decide
example :
    align_blocks (fun _ => Except.error ()) 120
      [⟨"intro", 0, 10, "", 1⟩, ⟨"follow-up", 0, 10, "", 1⟩] =
      [⟨"intro", "", ⟨some 1, none⟩⟩, ⟨"follow-up", "", ⟨some 1, none⟩⟩] := by
  decide

/-! ### Classifier (C5) -/

/-- C5: `detect_language` returns `"hi"` whenever the text contains a
Devanagari character, independently of the fallback detector; otherwise
it returns `"hi"` exactly when the detector reports a code starting with
`"hi"`, and `"en"` for the `"en"` code, any other code, or a detector
exception; it is total (never raises) with range `{"hi", "en"}`. -/
theorem detect_language_characterization
    (det det' : String → Except Unit String) (text : String) :
    (hasDevanagari text = true →
      detect_language det text = "hi" ∧
      detect_language det text = detect_language det' text) ∧
    (hasDevanagari text = false →
      detect_language det text =
        (match det text with
         | Except.ok lang => if pyStartsWith lang "hi" then "hi" else "en"
         | Except.error _ => "en")) ∧
    (detect_language det text = "hi" ∨ detect_language det text = "en") := by
  refine ⟨fun h => ?_, fun h => ?_, ?_⟩
  · simp [detect_language, h]
  · simp only [detect_language, h, Bool.false_eq_true, if_false]
    cases det text with
    | ok lang =>
      by_cases h1 : pyStartsWith lang "hi" <;>
        by_cases h2 : pyStartsWith lang "en" <;> simp [h1, h2]
    | error e => rfl
  · by_cases h : hasDevanagari text
    · left; simp [detect_language, h]
    · simp only [detect_language, h, Bool.false_eq_true, if_false]
      cases det text with
      | ok lang =>
        by_cases h1 : pyStartsWith lang "hi" <;>
          by_cases h2 : pyStartsWith lang "en" <;> simp [h1, h2]
      | error e => right; rfl

theorem detect_language_characterization_witness :
    detect_language (fun _ => Except.error ()) "नमस्ते" = "hi" ∧
    detect_language (fun _ => Except.ok "fr") "bonjour" = "en" :=
  ⟨((detect_language_characterization (fun _ => Except.error ())
      (fun _ => Except.ok "hi") "नमस्ते").1 (by decide)).1,
   (detect_language_characterization (fun _ => Except.ok "fr")
      (fun _ => Except.error ()) "bonjour").2.1 (by decide)⟩

/-! ### Aligner: primary step (C4) -/

/-- C4: a PRIMARY span arriving while a primary is pending flushes the
pending one as a primary-only orphan; a pending primary left at the end
of the scan is flushed as a final orphan; hence two PRIMARY spans yield
exactly two orphan pairs. -/
theorem align_primary_step (det : String → Except Unit String) (tol : ℚ)
    (p b : Block) (bs : List Block)
    (hen : detect_language det b.text = "en") :
    alignAux det tol (some p) (b :: bs)
      = ⟨p.text, "", ⟨some p.page, none⟩⟩ :: alignAux det tol (some b) bs ∧
    alignAux det tol (some p) [] = [⟨p.text, "", ⟨some p.page, none⟩⟩] ∧
    (∀ b2 : Block, detect_language det b2.text = "en" →
      align_blocks det tol [b, b2]
        = [⟨b.text, "", ⟨some b.page, none⟩⟩,
           ⟨b2.text, "", ⟨some b2.page, none⟩⟩]) := by
  refine ⟨by simp [alignAux, hen], rfl, fun b2 h2 => ?_⟩
  simp [align_blocks, alignAux, hen, h2]

theorem align_primary_step_witness :
    alignAux (fun _ => Except.error ()) 120 (some ⟨"intro", 0, 10, "", 1⟩)
        [⟨"follow-up", 0, 10, "", 1⟩]
      = ⟨"intro", "", ⟨some 1, none⟩⟩ ::
          alignAux (fun _ => Except.error ()) 120 (some ⟨"follow-up", 0, 10, "", 1⟩) [] ∧
    align_blocks (fun _ => Except.error ()) 120
        [⟨"intro", 0, 10, "", 1⟩, ⟨"follow-up", 0, 10, "", 1⟩]
      = [⟨"intro", "", ⟨some 1, none⟩⟩, ⟨"follow-up", "", ⟨some 1, none⟩⟩] :=
  ⟨(align_primary_step (fun _ => Except.error ()) 120 ⟨"intro", 0, 10, "", 1⟩
      ⟨"follow-up", 0, 10, "", 1⟩ [] (by decide)).1,
   (align_primary_step (fun _ => Except.error ()) 120 ⟨"follow-up", 0, 10, "", 1⟩
      ⟨"intro", 0, 10, "", 1⟩ [] (by decide)).2.2 ⟨"follow-up", 0, 10, "", 1⟩ (by decide)⟩

/-! ### Aligner: secondary step (C1) -/

/-- C1: a SECONDARY span pairs with the pending primary and clears the
slot exactly when a pending primary exists, the pages agree and the
vertical distance is within the tolerance (inclusively); in every other
situation it is emitted as a secondary-only orphan with the pending slot
left unchanged, and in particular spans on different pages never pair. -/
theorem align_secondary_step (det : String → Except Unit String) (tol : ℚ)
    (pending : Option Block) (b : Block) (bs : List Block)
    (hhi : detect_language det b.text = "hi") :
    (∀ p, pending = some p → b.page = p.page → |b.y0 - p.y0| ≤ tol →
      alignAux det tol pending (b :: bs)
        = ⟨p.text, b.text, ⟨some p.page, some b.page⟩⟩ :: alignAux det tol none bs) ∧
    (∀ p, pending = some p → ¬(b.page = p.page ∧ |b.y0 - p.y0| ≤ tol) →
      alignAux det tol pending (b :: bs)
        = ⟨"", b.text, ⟨none, some b.page⟩⟩ :: alignAux det tol pending bs) ∧
    (pending = none →
      alignAux det tol pending (b :: bs)
        = ⟨"", b.text, ⟨none, some b.page⟩⟩ :: alignAux det tol pending bs) ∧
    (∀ p, pending = some p → b.page ≠ p.page →
      alignAux det tol pending (b :: bs)
        = ⟨"", b.text, ⟨none, some b.page⟩⟩ :: alignAux det tol pending bs) := by
  have hne : ¬ detect_language det b.text = "en" := by rw [hhi]; decide
  refine ⟨fun p hp hpage hdist => ?_, fun p hp hno => ?_, fun hp => ?_,
    fun p hp hpage => ?_⟩
  · subst hp; simp [alignAux, hhi, hne, hpage, hdist]
  · subst hp; simp [alignAux, hhi, hne, hno]
  · subst hp; simp [alignAux, hhi, hne]
  · subst hp; simp [alignAux, hhi, hne, hpage]

/-! ### Aligner: pair shapes (C2, C10) and counting (C3) -/

lemma alignAux_step_en_some (det : String → Except Unit String) (tol : ℚ)
    (p b : Block) (bs : List Block)
    (hen : detect_language det b.text = "en") :
    alignAux det tol (some p) (b :: bs)
      = ⟨p.text, "", ⟨some p.page, none⟩⟩ :: alignAux det tol (some b) bs := by
  simp [alignAux, hen]

lemma alignAux_step_en_none (det : String → Except Unit String) (tol : ℚ)
    (b : Block) (bs : List Block)
    (hen : detect_language det b.text = "en") :
    alignAux det tol none (b :: bs) = alignAux det tol (some b) bs := by
  simp [alignAux, hen]

lemma alignAux_step_hi_pair (det : String → Except Unit String) (tol : ℚ)
    (p b : Block) (bs : List Block)
    (hhi : detect_language det b.text = "hi")
    (hg : b.page = p.page ∧ |b.y0 - p.y0| ≤ tol) :
    alignAux det tol (some p) (b :: bs)
      = ⟨p.text, b.text, ⟨some p.page, some b.page⟩⟩ :: alignAux det tol none bs := by
  have hne : ¬ detect_language det b.text = "en" := by rw [hhi]; decide
  simp [alignAux, hhi, hne, hg]

lemma alignAux_step_hi_orphan (det : String → Except Unit String) (tol : ℚ)
    (p b : Block) (bs : List Block)
    (hhi : detect_language det b.text = "hi")
    (hg : ¬(b.page = p.page ∧ |b.y0 - p.y0| ≤ tol)) :
    alignAux det tol (some p) (b :: bs)
      = ⟨"", b.text, ⟨none, some b.page⟩⟩ :: alignAux det tol (some p) bs := by
  have hne : ¬ detect_language det b.text = "en" := by rw [hhi]; decide
  simp [alignAux, hhi, hne, hg]

lemma alignAux_step_hi_none (det : String → Except Unit String) (tol : ℚ)
    (b : Block) (bs : List Block)
    (hhi : detect_language det b.text = "hi") :
    alignAux det tol none (b :: bs)
      = ⟨"", b.text, ⟨none, some b.page⟩⟩ :: alignAux det tol none bs := by
  have hne : ¬ detect_language det b.text = "en" := by rw [hhi]; decide
  simp [alignAux, hhi, hne]

lemma alignAux_step_other (det : String → Except Unit String) (tol : ℚ)
    (pending : Option Block) (b : Block) (bs : List Block)
    (hen : ¬ detect_language det b.text = "en")
    (hhi : ¬ detect_language det b.text = "hi") :
    alignAux det tol pending (b :: bs) = alignAux det tol pending bs := by
  cases pending <;> simp [alignAux, hen, hhi]

/-- Every pair emitted by the aligner is a primary orphan, a secondary
orphan, or a paired pair with equal recorded pages (given that span and
pending texts are non-empty). -/
lemma alignAux_mem_shape (det : String → Except Unit String) (tol : ℚ) :
    ∀ (bs : List Block) (pending : Option Block),
      (∀ p, pending = some p → p.text ≠ "") →
      (∀ b ∈ bs, b.text ≠ "") →
      ∀ pr ∈ alignAux det tol pending bs,
        (pr.en ≠ "" ∧ pr.hi = "" ∧ pr.meta.page_en.isSome = true ∧
          pr.meta.page_hi = none) ∨
        (pr.en = "" ∧ pr.hi ≠ "" ∧ pr.meta.page_en = none ∧
          pr.meta.page_hi.isSome = true) ∨
        (pr.en ≠ "" ∧ pr.hi ≠ "" ∧ pr.meta.page_en.isSome = true ∧
          pr.meta.page_en = pr.meta.page_hi) := by
  intro bs
  induction bs with
  | nil =>
    intro pending hp hb pr hpr
    cases pending with
    | none => simp [alignAux] at hpr
    | some p =>
      simp [alignAux] at hpr
      subst hpr
      exact Or.inl ⟨hp p rfl, rfl, rfl, rfl⟩
  | cons b bs ih =>
    intro pending hp hb pr hpr
    have hbtail : ∀ x ∈ bs, x.text ≠ "" := fun x hx => hb x (List.mem_cons_of_mem _ hx)
    have hbhead : b.text ≠ "" := hb b (List.mem_cons_self _ _)
    have hpendb : ∀ q, some b = some q → q.text ≠ "" :=
      fun q hq => Option.some.inj hq ▸ hbhead
    by_cases hen : detect_language det b.text = "en"
    · cases pending with
      | some p =>
        rw [alignAux_step_en_some det tol p b bs hen] at hpr
        rcases List.mem_cons.mp hpr with h | h
        · subst h; exact Or.inl ⟨hp p rfl, rfl, rfl, rfl⟩
        · exact ih (some b) hpendb hbtail pr h
      | none =>
        rw [alignAux_step_en_none det tol b bs hen] at hpr
        exact ih (some b) hpendb hbtail pr hpr
    · by_cases hhi : detect_language det b.text = "hi"
      · cases pending with
        | some p =>
          by_cases hg : b.page = p.page ∧ |b.y0 - p.y0| ≤ tol
          · rw [alignAux_step_hi_pair det tol p b bs hhi hg] at hpr
            rcases List.mem_cons.mp hpr with h | h
            · subst h
              exact Or.inr (Or.inr ⟨hp p rfl, hbhead, rfl, congrArg some hg.1.symm⟩)
            · exact ih none (fun q hq => nomatch hq) hbtail pr h
          · rw [alignAux_step_hi_orphan det tol p b bs hhi hg] at hpr
            rcases List.mem_cons.mp hpr with h | h
            · subst h; exact Or.inr (Or.inl ⟨rfl, hbhead, rfl, rfl⟩)
            · exact ih (some p) hp hbtail pr h
        | none =>
          rw [alignAux_step_hi_none det tol b bs hhi] at hpr
          rcases List.mem_cons.mp hpr with h | h
          · subst h; exact Or.inr (Or.inl ⟨rfl, hbhead, rfl, rfl⟩)
          · exact ih none (fun q hq => nomatch hq) hbtail pr h
      · rw [alignAux_step_other det tol pending b bs hen hhi] at hpr
        exact ih pending hp hbtail pr hpr

/-- C2: on spans with non-empty text, every emitted pair has at least
one of its two text fields non-empty. -/
theorem align_blocks_one_side_present (det : String → Except Unit String)
    (tol : ℚ) (bs : List Block) (h : ∀ b ∈ bs, b.text ≠ "") :
    ∀ pr ∈ align_blocks det tol bs, pr.en ≠ "" ∨ pr.hi ≠ "" := by
  intro pr hpr
  rcases alignAux_mem_shape det tol bs none (fun p hp => nomatch hp) h pr hpr with
    h1 | h2 | h3
  · exact Or.inl h1.1
  · exact Or.inr h2.2.1
  · exact Or.inl h3.1

theorem align_blocks_one_side_present_witness :
    (⟨"", "नमस्ते", ⟨none, some 1⟩⟩ : AlignedPair).en ≠ "" ∨
    (⟨"", "नमस्ते", ⟨none, some 1⟩⟩ : AlignedPair).hi ≠ "" :=
  align_blocks_one_side_present (fun _ => Except.error ()) 120
    [⟨"नमस्ते", 0, 20, "", 1⟩] (by decide)
    ⟨"", "नमस्ते", ⟨none, some 1⟩⟩ (by decide)

/-- C10: each emitted pair records a primary page exactly when its
primary text is non-empty, a secondary page exactly when its secondary
text is non-empty, and in a paired pair the two pages are equal. -/
theorem align_blocks_meta_consistent (det : String → Except Unit String)
    (tol : ℚ) (bs : List Block) (h : ∀ b ∈ bs, b.text ≠ "") :
    ∀ pr ∈ align_blocks det tol bs,
      (pr.meta.page_en.isSome = true ↔ pr.en ≠ "") ∧
      (pr.meta.page_hi.isSome = true ↔ pr.hi ≠ "") ∧
      (pr.en ≠ "" → pr.hi ≠ "" → pr.meta.page_en = pr.meta.page_hi) := by
  intro pr hpr
  rcases alignAux_mem_shape det tol bs none (fun p hp => nomatch hp) h pr hpr with
    ⟨he, hh, hse, hsh⟩ | ⟨he, hh, hse, hsh⟩ | ⟨he, hh, hse, heq⟩
  · refine ⟨⟨fun _ => he, fun _ => hse⟩, ?_, fun _ hcon => absurd hh hcon⟩
    rw [hsh, hh]; simp
  · refine ⟨?_, ⟨fun _ => hh, fun _ => hsh⟩, fun hcon _ => absurd he hcon⟩
    rw [hse, he]; simp
  · exact ⟨⟨fun _ => he, fun _ => hse⟩, ⟨fun _ => hh, fun _ => heq ▸ hse⟩,
      fun _ _ => heq⟩

theorem align_blocks_meta_consistent_witness :
    ((⟨"intro", "", ⟨some 1, none⟩⟩ : AlignedPair).meta.page_en.isSome = true ↔
      (⟨"intro", "", ⟨some 1, none⟩⟩ : AlignedPair).en ≠ "") ∧
    ((⟨"intro", "", ⟨some 1, none⟩⟩ : AlignedPair).meta.page_hi.isSome = true ↔
      (⟨"intro", "", ⟨some 1, none⟩⟩ : AlignedPair).hi ≠ "") ∧
    ((⟨"intro", "", ⟨some 1, none⟩⟩ : AlignedPair).en ≠ "" →
      (⟨"intro", "", ⟨some 1, none⟩⟩ : AlignedPair).hi ≠ "" →
      (⟨"intro", "", ⟨some 1, none⟩⟩ : AlignedPair).meta.page_en =
        (⟨"intro", "", ⟨some 1, none⟩⟩ : AlignedPair).meta.page_hi) :=
  align_blocks_meta_consistent (fun _ => Except.error ()) 120
    [⟨"intro", 0, 30, "", 1⟩] (by decide)
    ⟨"intro", "", ⟨some 1, none⟩⟩ (by decide)

lemma countEn_cons (det : String → Except Unit String) (b : Block) (bs : List Block) :
    countEn det (b :: bs)
      = countEn det bs + (if detect_language det b.text = "en" then 1 else 0) := by
  simp [countEn, List.countP_cons]

lemma countHi_cons (det : String → Except Unit String) (b : Block) (bs : List Block) :
    countHi det (b :: bs)
      = countHi det bs + (if detect_language det b.text = "hi" then 1 else 0) := by
  simp [countHi, List.countP_cons]

lemma countPaired_cons (x : AlignedPair) (l : List AlignedPair) :
    countPaired (x :: l)
      = countPaired l
        + (if x.meta.page_en.isSome && x.meta.page_hi.isSome then 1 else 0) := by
  simp [countPaired, List.countP_cons]

/-- Sides accounting: pairs plus paired-count equals pending plus
classified span counts. -/
lemma alignAux_length_paired (det : String → Except Unit String) (tol : ℚ) :
    ∀ (bs : List Block) (pending : Option Block),
      (alignAux det tol pending bs).length
          + countPaired (alignAux det tol pending bs)
        = (if pending.isSome then 1 else 0) + countEn det bs + countHi det bs := by
  intro bs
  induction bs with
  | nil =>
    intro pending
    cases pending <;>
      simp [alignAux, countPaired, countEn, countHi, List.countP_cons]
  | cons b bs ih =>
    intro pending
    by_cases hen : detect_language det b.text = "en"
    · have hhi : ¬ detect_language det b.text = "hi" := by rw [hen]; decide
      rw [countEn_cons, countHi_cons, if_pos hen, if_neg hhi]
      cases pending with
      | some p =>
        rw [alignAux_step_en_some det tol p b bs hen]
        have := ih (some b)
        simp only [List.length_cons, countPaired_cons] at *
        simp at this ⊢
        omega
      | none =>
        rw [alignAux_step_en_none det tol b bs hen]
        have := ih (some b)
        simp at this ⊢
        omega
    · by_cases hhi : detect_language det b.text = "hi"
      · rw [countEn_cons, countHi_cons, if_pos hhi, if_neg hen]
        cases pending with
        | some p =>
          by_cases hg : b.page = p.page ∧ |b.y0 - p.y0| ≤ tol
          · rw [alignAux_step_hi_pair det tol p b bs hhi hg]
            have := ih none
            simp only [List.length_cons, countPaired_cons] at *
            simp at this ⊢
            omega
          · rw [alignAux_step_hi_orphan det tol p b bs hhi hg]
            have := ih (some p)
            simp only [List.length_cons, countPaired_cons] at *
            simp at this ⊢
            omega
        | none =>
          rw [alignAux_step_hi_none det tol b bs hhi]
          have := ih none
          simp only [List.length_cons, countPaired_cons] at *
          simp at this ⊢
          omega
      · rw [alignAux_step_other det tol pending b bs hen hhi,
          countEn_cons, countHi_cons, if_neg hen, if_neg hhi]
        have := ih pending
        omega

/-- Each paired pair consumes one secondary span. -/
lemma alignAux_paired_le (det : String → Except Unit String) (tol : ℚ) :
    ∀ (bs : List Block) (pending : Option Block),
      countPaired (alignAux det tol pending bs) ≤ countHi det bs := by
  intro bs
  induction bs with
  | nil =>
    intro pending
    cases pending <;>
      simp [alignAux, countPaired, countHi, List.countP_cons]
  | cons b bs ih =>
    intro pending
    by_cases hen : detect_language det b.text = "en"
    · have hhi : ¬ detect_language det b.text = "hi" := by rw [hen]; decide
      rw [countHi_cons, if_neg hhi]
      cases pending with
      | some p =>
        rw [alignAux_step_en_some det tol p b bs hen, countPaired_cons]
        have := ih (some b)
        simp
        omega
      | none =>
        rw [alignAux_step_en_none det tol b bs hen]
        have := ih (some b)
        omega
    · by_cases hhi : detect_language det b.text = "hi"
      · rw [countHi_cons, if_pos hhi]
        cases pending with
        | some p =>
          by_cases hg : b.page = p.page ∧ |b.y0 - p.y0| ≤ tol
          · rw [alignAux_step_hi_pair det tol p b bs hhi hg, countPaired_cons]
            have := ih none
            simp
            omega
          · rw [alignAux_step_hi_orphan det tol p b bs hhi hg, countPaired_cons]
            have := ih (some p)
            simp
            omega
        | none =>
          rw [alignAux_step_hi_none det tol b bs hhi, countPaired_cons]
          have := ih none
          simp
          omega
      · rw [alignAux_step_other det tol pending b bs hen hhi,
          countHi_cons, if_neg hhi]
        have := ih pending
        omega

/-- C3: the number of emitted pairs equals the number of
PRIMARY-classified spans plus the number of SECONDARY-classified spans
that were not merged into a paired pair. -/
theorem align_blocks_span_accounting (det : String → Except Unit String)
    (tol : ℚ) (bs : List Block) :
    (align_blocks det tol bs).length
      = countEn det bs
        + (countHi det bs - countPaired (align_blocks det tol bs)) ∧
    countPaired (align_blocks det tol bs) ≤ countHi det bs := by
  have h1 := alignAux_length_paired det tol bs none
  have h2 := alignAux_paired_le det tol bs none
  simp only [Option.isSome_none, Bool.false_eq_true, if_false] at h1
  exact ⟨by rw [align_blocks]; omega, h2⟩

/-! ### Chunk Builder (C6, C7) -/

lemma mkChunks_get (name : String) :
    ∀ (ds : List String) (n i : Nat) (c : Chunk),
      (mkChunks name n ds).get? i = some c →
      (c.alignment_status = "perfect" ↔
        (pyContains c.text "EN:" = true ∧ pyContains c.text "HI:" = true)) ∧
      c.chunk_id = name ++ "_chunk_" ++ toString (n + i) := by
  intro ds
  induction ds with
  | nil => intro n i c h; simp [mkChunks] at h
  | cons d ds ih =>
    intro n i c h
    cases i with
    | zero =>
      simp only [mkChunks, List.get?] at h
      obtain rfl : c = _ := (Option.some.inj h).symm
      constructor
      · by_cases hA : pyContains (pyStrip d) "EN:" = true <;>
          by_cases hB : pyContains (pyStrip d) "HI:" = true <;>
          simp [hA, hB]
      · simp
    | succ j =>
      have h' : (mkChunks name (n + 1) ds).get? j = some c := by
        simpa [mkChunks] using h
      have h3 := ih (n + 1) j c h'
      refine ⟨h3.1, ?_⟩
      have e : n + 1 + j = n + (j + 1) := by omega
      rw [← e]
      exact h3.2

/-- C6: each produced chunk is labeled PERFECT exactly when its text
contains both the `"EN:"` and `"HI:"` markers, and its id is
`{source_name}_chunk_{i}` with `i` its 1-based position. -/
theorem create_bilingual_chunks_labels (split : List String → List String)
    (pairs : List AlignedPair) (name : String) (i : Nat) (c : Chunk)
    (h : (create_bilingual_chunks split pairs name).get? i = some c) :
    (c.alignment_status = "perfect" ↔
      (pyContains c.text "EN:" = true ∧ pyContains c.text "HI:" = true)) ∧
    c.chunk_id = name ++ "_chunk_" ++ toString (i + 1) := by
  rw [create_bilingual_chunks] at h
  by_cases hfb : formattedBlocks pairs = []
  · rw [if_pos hfb] at h; simp at h
  · rw [if_neg hfb] at h
    have h3 := mkChunks_get name (split (formattedBlocks pairs)) 1 i c h
    refine ⟨h3.1, ?_⟩
    have e : 1 + i = i + 1 := Nat.add_comm 1 i
    rw [← e]
    exact h3.2

def c6pairs : List AlignedPair := [⟨"intro", "नमस्ते", ⟨some 1, some 1⟩⟩]

def c6chunk : Chunk :=
  ⟨"doc_chunk_1", "doc", "hi-en", "perfect", 20, "EN: intro\nHI: नमस्ते"⟩

theorem create_bilingual_chunks_labels_witness :
    (c6chunk.alignment_status = "perfect" ↔
      (pyContains c6chunk.text "EN:" = true ∧ pyContains c6chunk.text "HI:" = true)) ∧
    c6chunk.chunk_id = "doc" ++ "_chunk_" ++ toString (0 + 1) :=
  create_bilingual_chunks_labels (fun l => l) c6pairs "doc" 0 c6chunk (by decide)

lemma mkChunks_text_mem (name : String) :
    ∀ (ds : List String) (n : Nat) (c : Chunk),
      c ∈ mkChunks name n ds → ∃ d ∈ ds, c.text = pyStrip d := by
  intro ds
  induction ds with
  | nil => intro n c h; simp [mkChunks] at h
  | cons d ds ih =>
    intro n c h
    rcases List.mem_cons.mp h with h | h
    · exact ⟨d, List.mem_cons_self _ _, by rw [h]⟩
    · obtain ⟨d', hd', he⟩ := ih (n + 1) c h
      exact ⟨d', List.mem_cons_of_mem _ hd', he⟩

lemma formattedBlocks_cons (p : AlignedPair) (ps : List AlignedPair) :
    formattedBlocks (p :: ps)
      = if p.en = "" ∧ p.hi = "" then formattedBlocks ps
        else formatPair p :: formattedBlocks ps := by
  by_cases hc : p.en = "" ∧ p.hi = ""
  · rw [if_pos hc]; simp only [formattedBlocks, List.filterMap_cons, if_pos hc]
  · rw [if_neg hc]; simp only [formattedBlocks, List.filterMap_cons, if_neg hc]

lemma formattedBlocks_eq_filter (pairs : List AlignedPair) :
    formattedBlocks pairs
      = (pairs.filter (fun p => !(p.en == "" && p.hi == ""))).map formatPair := by
  induction pairs with
  | nil => rfl
  | cons p ps ih =>
    by_cases hc : p.en = "" ∧ p.hi = ""
    · rw [formattedBlocks_cons, if_pos hc, List.filter_cons,
        if_neg (by simp [hc.1, hc.2])]
      exact ih
    · rw [formattedBlocks_cons, if_neg hc, List.filter_cons,
        if_pos (by rcases not_and_or.mp hc with h | h <;> simp [h]),
        List.map_cons, ih]

/-- C7: chunks are produced only from non-empty formatted blocks — pairs
with both sides empty are skipped, an input with no non-empty formatted
block yields no chunks at all, and (given the splitter emits no
whitespace-only document, a documented property of the external
splitter) no produced chunk has empty text. -/
theorem create_bilingual_chunks_no_empty_text (split : List String → List String)
    (pairs : List AlignedPair) (name : String)
    (hs : ∀ d ∈ split (formattedBlocks pairs), pyStrip d ≠ "") :
    (∀ c ∈ create_bilingual_chunks split pairs name, c.text ≠ "") ∧
    (formattedBlocks pairs = [] → create_bilingual_chunks split pairs name = []) ∧
    formattedBlocks pairs
      = (pairs.filter (fun p => !(p.en == "" && p.hi == ""))).map formatPair := by
  refine ⟨fun c hc => ?_, fun hfb => ?_, formattedBlocks_eq_filter pairs⟩
  · rw [create_bilingual_chunks] at hc
    by_cases hfb : formattedBlocks pairs = []
    · rw [if_pos hfb] at hc; simp at hc
    · rw [if_neg hfb] at hc
      obtain ⟨d, hd, he⟩ := mkChunks_text_mem name (split (formattedBlocks pairs)) 1 c hc
      rw [he]
      exact hs d hd
  · rw [create_bilingual_chunks, if_pos hfb]

theorem create_bilingual_chunks_no_empty_text_witness :
    (∀ c ∈ create_bilingual_chunks (fun l => l)
        [⟨"intro", "", ⟨some 1, none⟩⟩] "doc", c.text ≠ "") ∧
    (formattedBlocks [⟨"intro", "", ⟨some 1, none⟩⟩] = [] →
      create_bilingual_chunks (fun l => l) [⟨"intro", "", ⟨some 1, none⟩⟩] "doc" = []) ∧
    formattedBlocks [⟨"intro", "", ⟨some 1, none⟩⟩]
      = (([⟨"intro", "", ⟨some 1, none⟩⟩] : List AlignedPair).filter
          (fun p => !(p.en == "" && p.hi == ""))).map formatPair :=
  create_bilingual_chunks_no_empty_text (fun l => l)
    [⟨"intro", "", ⟨some 1, none⟩⟩] "doc" (by decide)

/-! ### Batch Driver (C8) -/

/-- C8 counterexample: with a failing first document and a healthy
second one, the driver aborts with the exception — it produces no chunk
list at all — although the healthy document alone yields a chunk. The
per-document failure is therefore not isolated. -/
theorem process_bilingual_pdfs_abort_counterexample :
    process_bilingual_pdfs (fun _ => Except.error ()) (fun l => l)
        [("bad", Except.error ()), ("good", Except.ok [⟨"intro", 0, 10, "", 1⟩])]
      = Except.error () ∧
    process_bilingual_pdfs (fun _ => Except.error ()) (fun l => l)
        [("good", Except.ok [⟨"intro", 0, 10, "", 1⟩])]
      = Except.ok [⟨"good_chunk_1", "good", "hi-en", "partial", 9, "EN: intro"⟩] := by
  exact ⟨rfl, rfl⟩

/-- C8 amended: a document whose extraction raises is not skipped — the
exception propagates and the whole batch aborts with no output, all
later documents unprocessed; only a batch in which every extraction
succeeds produces a chunk list. -/
theorem process_bilingual_pdfs_propagates_error
    (det : String → Except Unit String) (split : List String → List String)
    (name : String) (rest : List (String × Except Unit (List Block))) :
    process_bilingual_pdfs det split ((name, Except.error ()) :: rest)
      = Except.error () ∧
    (∀ docs : List (String × Except Unit (List Block)),
      (∀ d ∈ docs, d.2.isOk = true) →
      ∃ cs, process_bilingual_pdfs det split docs = Except.ok cs) := by
  refine ⟨rfl, ?_⟩
  intro docs
  induction docs with
  | nil => exact fun _ => ⟨[], rfl⟩
  | cons d ds ih =>
    intro hdocs
    obtain ⟨name', ext⟩ := d
    cases ext with
    | error e =>
      have := hdocs ⟨name', Except.error e⟩ (List.mem_cons_self _ _)
      simp [Except.isOk, Except.toBool] at this
    | ok blocks =>
      obtain ⟨cs, hcs⟩ := ih (fun x hx => hdocs x (List.mem_cons_of_mem _ hx))
      refine ⟨create_bilingual_chunks split (align_blocks det 120 blocks) name' ++ cs, ?_⟩
      simp [process_bilingual_pdfs, hcs]

theorem process_bilingual_pdfs_propagates_error_witness :
    process_bilingual_pdfs (fun _ => Except.error ()) (fun l => l)
        [("bad", Except.error ())] = Except.error () ∧
    ∃ cs, process_bilingual_pdfs (fun _ => Except.error ()) (fun l => l)
        [("good", Except.ok [⟨"intro", 0, 10, "", 1⟩])] = Except.ok cs :=
  ⟨(process_bilingual_pdfs_propagates_error (fun _ => Except.error ())
      (fun l => l) "bad" []).1,
   (process_bilingual_pdfs_propagates_error (fun _ => Except.error ())
      (fun l => l) "bad" []).2
     [("good", Except.ok [⟨"intro", 0, 10, "", 1⟩])] (by decide)⟩

/-! ### Lexicon Normalizer (C9) -/

lemma strAppend_assoc (a b c : String) : a ++ b ++ c = a ++ (b ++ c) := by
  obtain ⟨la⟩ := a; obtain ⟨lb⟩ := b; obtain ⟨lc⟩ := c
  show String.mk ((la ++ lb) ++ lc) = String.mk (la ++ (lb ++ lc))
  rw [List.append_assoc]

/-- C9: the canonical text is exactly the six labeled sub-fields in the
fixed order, newline-joined and trimmed; an empty synonyms or
disambiguation list renders as the `"N/A"` placeholder segment, and a
missing scalar field renders as an empty string (the segment and its
label are kept). -/
theorem cs_canonical_text_six_segments (e : CsEntry) :
    cs_canonical_text e = csSpecText e ∧
    (csSixSegments e).length = 6 ∧
    (e.synonyms_variants.getD [] = [] →
      (csSixSegments e).get? 4 = some "Synonyms/variants: N/A") ∧
    (e.disambiguation_questions.getD [] = [] →
      (csSixSegments e).get? 5 = some "Disambiguation questions: N/A") ∧
    (e.literal_translation = none →
      (csSixSegments e).get? 1 = some "Literal: ") := by
  refine ⟨?_, rfl, fun h => ?_, fun h => ?_, fun h => ?_⟩
  · simp only [cs_canonical_text, csSpecText, csSixSegments, pyJoin]
    rw [show (")\n" : String) = ")" ++ "\n" from by decide]
    simp only [strAppend_assoc]
  · simp [csSixSegments, h]
  · simp [csSixSegments, h]
  · simp [csSixSegments, h]

def csDemoEntry : CsEntry :=
  ⟨none, none, none, none, none, none, none, none, none, none, none, none⟩

theorem cs_canonical_text_six_segments_witness :
    (csSixSegments csDemoEntry).get? 4 = some "Synonyms/variants: N/A" ∧
    (csSixSegments csDemoEntry).get? 5 = some "Disambiguation questions: N/A" ∧
    (csSixSegments csDemoEntry).get? 1 = some "Literal: " :=
  ⟨(cs_canonical_text_six_segments csDemoEntry).2.2.1 rfl,
   (cs_canonical_text_six_segments csDemoEntry).2.2.2.1 rfl,
   (cs_canonical_text_six_segments csDemoEntry).2.2.2.2 rfl⟩

/-! ### Tolerance boundary facts for the secondary-step witness -/

lemma dist_boundary_le : |(220:ℚ) - 100| ≤ 120 := by norm_num

lemma dist_boundary_gt : ¬ |(22001/100:ℚ) - 100| ≤ 120 := by
  rw [show (22001/100:ℚ) - 100 = 12001/100 from by norm_num,
    abs_of_nonneg (by norm_num : (0:ℚ) ≤ 12001/100)]
  norm_num

theorem align_secondary_step_witness :
    alignAux (fun _ => Except.error ()) 120 (some ⟨"intro", 0, 100, "", 1⟩)
        [⟨"नमस्ते", 0, 220, "", 1⟩]
      = ⟨"intro", "नमस्ते", ⟨some 1, some 1⟩⟩ ::
          alignAux (fun _ => Except.error ()) 120 none [] ∧
    alignAux (fun _ => Except.error ()) 120 (some ⟨"intro", 0, 100, "", 1⟩)
        [⟨"नमस्ते", 0, 22001/100, "", 1⟩]
      = ⟨"", "नमस्ते", ⟨none, some 1⟩⟩ ::
          alignAux (fun _ => Except.error ()) 120
            (some ⟨"intro", 0, 100, "", 1⟩) [] ∧
    alignAux (fun _ => Except.error ()) 120 (some ⟨"intro", 0, 100, "", 2⟩)
        [⟨"नमस्ते", 0, 100, "", 1⟩]
      = ⟨"", "नमस्ते", ⟨none, some 1⟩⟩ ::
          alignAux (fun _ => Except.error ()) 120
            (some ⟨"intro", 0, 100, "", 2⟩) [] :=
  ⟨(align_secondary_step (fun _ => Except.error ()) 120
      (some ⟨"intro", 0, 100, "", 1⟩) ⟨"नमस्ते", 0, 220, "", 1⟩ []
      (by decide)).1 ⟨"intro", 0, 100, "", 1⟩ rfl rfl dist_boundary_le,
   (align_secondary_step (fun _ => Except.error ()) 120
      (some ⟨"intro", 0, 100, "", 1⟩) ⟨"नमस्ते", 0, 22001/100, "", 1⟩ []
      (by decide)).2.1 ⟨"intro", 0, 100, "", 1⟩ rfl
      (fun hg => dist_boundary_gt hg.2),
   (align_secondary_step (fun _ => Except.error ()) 120
      (some ⟨"intro", 0, 100, "", 2⟩) ⟨"नमस्ते", 0, 100, "", 1⟩ []
      (by decide)).2.2.2 ⟨"intro", 0, 100, "", 2⟩ rfl (by decide)⟩
